import Mathlib

/-!
Verification of the BurgerQuest ingestion pipeline.

Shallow embedding of the two source files:
  * `process_logs.py`   — load / dedup / group / enrich / save pipeline
  * `migrate_participants.py` — the `participants` schema migration

Python strings are modelled as `String`, Python ints as `Nat`/`Int`,
Python floats (only used for GPS arithmetic) as `Rat`, JSON-parse or
I/O failures as `Except`/`Option` values, and the external
collaborators (Telegram transport, Gemini classifier, image decoding)
as oracle functions supplied as parameters.  Exceptions that escape to
the top level are the `Except.error` branch of the pass; exceptions
caught by a `try` block are resolved locally, exactly where the source
catches them.
-/

namespace BurgerQuest

/-! ## Python primitives -/

/-- Decimal digit character, `chr(48 + d)`. -/
def digitCh (d : Nat) : Char := Char.ofNat (48 + d)

/-- Little-endian decimal digit list of `n`; the fuel argument makes the
recursion structural (`fuel > n` always holds at the call sites). -/
def digitsRevF : Nat → Nat → List Char
  | 0, _ => []
  | fuel + 1, n =>
    if n < 10 then [digitCh n]
    else digitCh (n % 10) :: digitsRevF fuel (n / 10)

/-- Model of Python `str(n)` for a non-negative integer `n` (used by the
f-string `f"single_{msg.message_id}"`). -/
def natStr (n : Nat) : String := String.mk (digitsRevF (n + 1) n).reverse

/-- Decoder used to prove `natStr` injective. -/
def decodeRev : List Char → Nat
  | [] => 0
  | c :: cs => (c.toNat - 48) + 10 * decodeRev cs

/-- Decimal rendering of a rational (model serialization of a JSON
number; the exact digits of Python float formatting are not modelled). -/
def ratStr (q : Rat) : String :=
  (if q.num < 0 then "-" else "") ++ natStr q.num.natAbs ++
    (if q.den = 1 then "" else "/" ++ natStr q.den)

/-- Accumulator pass behind `pySplit`: `cur` holds the reversed
characters of the token being read. -/
def pyWordsAux (cur : List Char) : List Char → List String
  | [] => if cur = [] then [] else [String.mk cur.reverse]
  | c :: cs =>
    if c.isWhitespace then
      if cur = [] then pyWordsAux [] cs
      else String.mk cur.reverse :: pyWordsAux [] cs
    else pyWordsAux (c :: cur) cs

/-- Model of Python `str.split()` with no argument: the maximal
non-whitespace runs, in order (empty pieces are dropped). -/
def pySplit (s : String) : List String := pyWordsAux [] s.data

/-- Model of Python `sep.join(xs)`. -/
def pyJoin (sep : String) : List String → String
  | [] => ""
  | [x] => x
  | x :: y :: xs => x ++ sep ++ pyJoin sep (y :: xs)

/-- Model of Python `a or b` on optional strings (`None` and `""` are
falsy). -/
def pyOr (a b : Option String) : Option String :=
  match a with
  | some s => if s = "" then b else some s
  | none => b

/-! ## Data model (process_logs.py) -/

/-- One photo size variant of a Telegram photo
(`photo.file_id`, `photo.file_unique_id`). -/
structure PhotoRef where
  file_id : String
  file_unique_id : String
deriving DecidableEq, Repr

/-- One inbound Telegram message, as read by `main()`:
`message_id`, `chat_id` (already stringified, the source compares
`str(msg.chat_id)`), `from_user.first_name` when a user is attached,
`text`, `caption`, `media_group_id`, `date.isoformat()` and the list of
photo variants (`photo`, largest last). -/
structure Msg where
  message_id : Nat
  chat_id : String
  from_user : Option String
  text : Option String
  caption : Option String
  media_group_id : Option String
  date : String
  photo : List PhotoRef
deriving DecidableEq, Repr

/-- The AI-derived fields of one classifier response, after
`json.loads(response.text)` succeeds with the schema of the system
prompt. -/
structure AiFields where
  name : String
  category : String
  rating : Nat
  price : Rat
  is_burger : Bool
  comment : String
  items : List String
deriving DecidableEq, Repr

/-- One persisted record of `data/meals.json`: the classifier fields
plus the provenance fields added in `main()` (lines 135-144) and the
`participants` field added by `migrate_participants.py` (absent on
legacy records). -/
structure Entry where
  ai : AiFields
  sender : String
  msg_id : Nat
  timestamp : String
  image_paths : List String
  image_path : Option String
  gps : Option (Rat × Rat)
  participants : Option (List String)
deriving DecidableEq, Repr

/-! ## Metadata extractor (process_logs.py, get_gps_location) -/

/-- The GPS-relevant content of an EXIF block after the tag-decoding
loop of lines 45-51: the raw `GPSLatitude`/`GPSLongitude`
degree-minute-second tuples (a list models a tuple of arbitrary,
possibly malformed, length) and the hemisphere reference tags. -/
structure RawGpsInfo where
  latitude : Option (List Rat)
  longitude : Option (List Rat)
  latitudeRef : Option String
  longitudeRef : Option String
deriving DecidableEq, Repr

/-- What opening one image file can yield: an unreadable file
(`Image.open` or `_getexif` raises), an image with no EXIF block
(`if not exif_data: return None`), or an EXIF block whose GPS content
is `info`. -/
inductive ImageInput where
  | unreadable
  | noExif
  | withExif (info : RawGpsInfo)
deriving DecidableEq, Repr

/-- The local helper `to_deg` of lines 53-56: indexes `value[0]`,
`value[1]`, `value[2]` (raising if the tuple is shorter) and returns
`d + m/60 + s/3600`. -/
def to_deg (value : List Rat) : Except String Rat :=
  match value with
  | d :: m :: s :: _ => Except.ok (d + m / 60 + s / 3600)
  | _ => Except.error "IndexError: tuple index out of range"

/-- Lines 52-61 of `get_gps_location`, before the enclosing
`try/except`: if `GPSLatitude` is absent the function falls through to
`return None`; otherwise both coordinates are converted
(`gps_info["GPSLongitude"]` raises `KeyError` when absent) and the "S"
and "W" reference tags negate the corresponding value. -/
def gpsFromInfo (info : RawGpsInfo) : Except String (Option (Rat × Rat)) :=
  match info.latitude with
  | none => Except.ok none
  | some latV =>
    match to_deg latV with
    | Except.error e => Except.error e
    | Except.ok lat =>
      match info.longitude with
      | none => Except.error "KeyError: GPSLongitude"
      | some lngV =>
        match to_deg lngV with
        | Except.error e => Except.error e
        | Except.ok lng =>
          Except.ok (some
            (if info.latitudeRef = some "S" then -lat else lat,
             if info.longitudeRef = some "W" then -lng else lng))

/-- The body of `get_gps_location` without its `try/except`:
`Except.error` marks an exception that would reach the handler. -/
def gpsBody : ImageInput → Except String (Option (Rat × Rat))
  | ImageInput.unreadable => Except.error "OSError: cannot open image"
  | ImageInput.noExif => Except.ok none
  | ImageInput.withExif info => gpsFromInfo info

/-- `get_gps_location` (lines 39-63): the whole body runs under
`try: ... except Exception: return None`. -/
def get_gps_location (input : ImageInput) : Option (Rat × Rat) :=
  match gpsBody input with
  | Except.ok v => v
  | Except.error _ => none

/-! ## Record store file (process_logs.py lines 73-80 and 152-154) -/

/-- State of the persisted `data/meals.json` before a pass: absent,
present but failing `json.load`, or parsing to a record list. -/
inductive FileState where
  | absent
  | corrupt
  | parsed (records : List Entry)
deriving DecidableEq, Repr

/-- Fail-safe loading (lines 74-80): a missing file or a parse failure
yields the empty list. -/
def load : FileState → List Entry
  | FileState.absent => []
  | FileState.corrupt => []
  | FileState.parsed records => records

/-- JSON string literal (model serialization; escaping is not modelled,
none of the verified properties depends on it). -/
def jstr (s : String) : String := "\"" ++ s ++ "\""

/-- JSON array of pre-rendered items. -/
def jarr (xs : List String) : String := "[" ++ String.intercalate ", " xs ++ "]"

/-- JSON value of an optional string (`null` when absent). -/
def jopt : Option String → String
  | none => "null"
  | some s => jstr s

/-- Model serialization of one record, fields in the insertion order
the source produces them (classifier fields, then the provenance
fields of lines 135-144, then `participants` when the migration added
it). -/
def entryJson (e : Entry) : String :=
  "\x7b" ++ String.intercalate ", "
    ([jstr "name" ++ ": " ++ jstr e.ai.name,
      jstr "category" ++ ": " ++ jstr e.ai.category,
      jstr "rating" ++ ": " ++ natStr e.ai.rating,
      jstr "price" ++ ": " ++ ratStr e.ai.price,
      jstr "is_burger" ++ ": " ++ (if e.ai.is_burger then "true" else "false"),
      jstr "comment" ++ ": " ++ jstr e.ai.comment,
      jstr "items" ++ ": " ++ jarr (e.ai.items.map jstr),
      jstr "sender" ++ ": " ++ jstr e.sender,
      jstr "msg_id" ++ ": " ++ natStr e.msg_id,
      jstr "timestamp" ++ ": " ++ jstr e.timestamp,
      jstr "image_paths" ++ ": " ++ jarr (e.image_paths.map jstr),
      jstr "image_path" ++ ": " ++ jopt e.image_path,
      jstr "gps" ++ ": " ++
        (match e.gps with
         | none => "null"
         | some p => "\x7b\"lat\": " ++ ratStr p.1 ++ ", \"lng\": " ++ ratStr p.2 ++ "\x7d")] ++
     (match e.participants with
      | none => []
      | some ps => [jstr "participants" ++ ": " ++ jarr (ps.map jstr)])) ++ "\x7d"

/-- The chunk sequence `json.dump(db, f, indent=2)` streams to the
file handle: the full document is the concatenation of the chunks, and
the stream is cut off where a failure interrupts serialization. -/
def saveChunks (db : List Entry) : List String :=
  match db with
  | [] => ["[]"]
  | _ => ["["] ++ (db.map entryJson).intersperse ", " ++ ["]"]

/-- The complete serialized document of a store. -/
def savedText (db : List Entry) : String := String.join (saveChunks db)

/-- `save` (lines 152-154): `open(db_path, 'w')` truncates the file
before `json.dump` streams the chunks, so the result never depends on
the prior contents.  `failAfter = some k` injects a failure after `k`
chunks were written; `none` is the failure-free run. -/
def saveFile (_prior : Option String) (db : List Entry) (failAfter : Option Nat) : Option String :=
  match failAfter with
  | none => some (String.join (saveChunks db))
  | some k => some (String.join ((saveChunks db).take k))

/-! ## Migration (migrate_participants.py) -/

/-- Effect of the migration loop body on one record (lines 21-24). -/
def migrateEntry (e : Entry) : Entry :=
  match e.participants with
  | some _ => e
  | none => { e with participants := some [e.sender] }

/-- The loop of lines 20-24: rewrite the records in place and count how
many were changed. -/
def migrateRun : List Entry → List Entry × Nat
  | [] => ([], 0)
  | e :: rest =>
    let r := migrateRun rest
    match e.participants with
    | some _ => (e :: r.1, r.2)
    | none => ({ e with participants := some [e.sender] } :: r.1, r.2 + 1)

/-- `migrate()` on a parsed store (lines 17-31): returns the file
contents after the call, the reported count, and whether a write-back
happened (`updated > 0`). -/
def migrate (file : List Entry) : List Entry × Nat × Bool :=
  let r := migrateRun file
  if r.2 > 0 then (r.1, r.2, true) else (file, r.2, false)

/-! ## Pipeline (process_logs.py main) -/

/-- The external collaborators of one pass, as pure oracles:
`download` is `bot.get_file` plus `download_to_drive` for one photo,
`openImage` is `Image.open` on a downloaded path during payload
assembly, `generateContent` is the Gemini call returning
`response.text`, `parseJson` is `json.loads` on that text (an error is
a non-JSON response), and `imageAt` is the image content that
`get_gps_location` finds at a path. -/
structure Oracle where
  download : PhotoRef → Except String Unit
  openImage : String → Except String Unit
  generateContent : List String → Except String String
  parseJson : String → Except String AiFields
  imageAt : String → ImageInput

/-- Destination path of one downloaded photo
(`f"assets/images/{photo.file_unique_id}.jpg"`). -/
def pathFor (ph : PhotoRef) : String :=
  "assets/images/" ++ ph.file_unique_id ++ ".jpg"

/-- Line 94: the grouping key — `media_group_id` when truthy, else the
synthesized `f"single_{msg.message_id}"`. -/
def groupId (m : Msg) : String :=
  match m.media_group_id with
  | some g => if g = "" then "single_" ++ natStr m.message_id else g
  | none => "single_" ++ natStr m.message_id

/-- The filter of line 90: keep a message iff its chat matches and its
id is not in the dedup set. -/
def msgSurvives (chat : String) (processed : List Nat) (m : Msg) : Prop :=
  m.chat_id = chat ∧ m.message_id ∉ processed

instance (chat : String) (processed : List Nat) (m : Msg) :
    Decidable (msgSurvives chat processed m) := by
  unfold msgSurvives; infer_instance

/-- Lines 88-91: drop empty updates and filtered messages. -/
def survivors (chat : String) (processed : List Nat) (updates : List (Option Msg)) : List Msg :=
  updates.filterMap (fun u =>
    match u with
    | none => none
    | some m => if msgSurvives chat processed m then some m else none)

/-- Lines 96-98: append `m` to the member list of key `k`, creating the
group at the end when the key is new (Python dicts preserve insertion
order). -/
def addToGroups (gs : List (String × List Msg)) (k : String) (m : Msg) :
    List (String × List Msg) :=
  if ∃ g ∈ gs, g.1 = k then
    gs.map (fun g => if g.1 = k then (g.1, g.2 ++ [m]) else g)
  else gs ++ [(k, [m])]

/-- The grouping loop of lines 88-98 over the surviving messages. -/
def buildGroups : List (String × List Msg) → List Msg → List (String × List Msg)
  | gs, [] => gs
  | gs, m :: ms => buildGroups (addToGroups gs (groupId m) m) ms

/-- Line 103: the display name used for the sender, `"Unknown Hunter"`
when no user is attached to the representative message. -/
def resolvedName (m : Msg) : String :=
  match m.from_user with
  | some n => n
  | none => "Unknown Hunter"

/-- Line 104: `full_name.split()[0]` — the first whitespace token of
the display name; indexing raises on an empty token list. -/
def senderOf (m : Msg) : Except String String :=
  match pySplit (resolvedName m) with
  | [] => Except.error "IndexError: list index out of range"
  | s :: _ => Except.ok s

/-- The values `filter(None, [m.text or m.caption for m in msgs])`
keeps, in arrival order. -/
def truthyTexts (msgs : List Msg) : List String :=
  msgs.filterMap (fun m =>
    match pyOr m.text m.caption with
    | some s => if s = "" then none else some s
    | none => none)

/-- Lines 107-108: space-join the truthy texts, with the `or
"Food photo"` fallback on the empty join. -/
def combinedText (msgs : List Msg) : String :=
  let joined := pyJoin " " (truthyTexts msgs)
  if joined = "" then "Food photo" else joined

/-- The download loop of lines 111-117 (outside any `try`): for each
member with photos take the last (largest) variant, download it, and
collect its path; a download failure is an uncaught exception. -/
def downloadGroup (o : Oracle) : List String → List Msg → Except String (List String)
  | paths, [] => Except.ok paths
  | paths, m :: ms =>
    match m.photo.getLast? with
    | none => downloadGroup o paths ms
    | some ph =>
      match o.download ph with
      | Except.ok _ => downloadGroup o (paths ++ [pathFor ph]) ms
      | Except.error e => Except.error e

/-- The payload assembly of lines 120-122 (outside any `try`):
`contents = [combined_text]` then `Image.open` on each path; an open
failure is an uncaught exception. -/
def assembleContents (o : Oracle) : List String → List String → Except String (List String)
  | acc, [] => Except.ok acc
  | acc, p :: ps =>
    match o.openImage p with
    | Except.ok _ => assembleContents o (acc ++ [p]) ps
    | Except.error e => Except.error e

/-- The body of the `try` block, lines 125-144: classifier call,
response parse, and record construction (provenance from the first
message of the group, cover image and GPS from the first path). -/
def enrichTry (o : Oracle) (sender : String) (main_msg : Msg) (paths contents : List String) :
    Except String Entry :=
  match o.generateContent contents with
  | Except.error e => Except.error e
  | Except.ok respText =>
    match o.parseJson respText with
    | Except.error e => Except.error e
    | Except.ok ai =>
      Except.ok
        { ai := ai
          sender := sender
          msg_id := main_msg.message_id
          timestamp := main_msg.date
          image_paths := paths
          image_path := paths.head?
          gps :=
            match paths.head? with
            | some p => get_gps_location (o.imageAt p)
            | none => none
          participants := none }

deriving instance DecidableEq for Except

/-- An exception that escapes `main()`: its message together with the
in-memory record list and console log at the moment it was raised (the
file is left untouched, the in-memory state dies with the process). -/
structure AbortInfo where
  message : String
  db : List Entry
  log : List String
deriving DecidableEq, Repr

/-- One iteration of the per-group loop, lines 100-150, over the state
(in-memory db, console log): sender extraction, download and payload
assembly abort the pass on failure; the `try` of lines 124-150 turns a
classifier/parse failure into a logged skip and a success into an
append plus a success line. -/
def processGroup (o : Oracle) (st : List Entry × List String) (g : String × List Msg) :
    Except AbortInfo (List Entry × List String) :=
  match g.2 with
  | [] => Except.error ⟨"IndexError: list index out of range", st.1, st.2⟩
  | main_msg :: _ =>
    match senderOf main_msg with
    | Except.error e => Except.error ⟨e, st.1, st.2⟩
    | Except.ok sender =>
      match downloadGroup o [] g.2 with
      | Except.error e => Except.error ⟨e, st.1, st.2⟩
      | Except.ok paths =>
        match assembleContents o [combinedText g.2] paths with
        | Except.error e => Except.error ⟨e, st.1, st.2⟩
        | Except.ok contents =>
          match enrichTry o sender main_msg paths contents with
          | Except.ok entry =>
            Except.ok (st.1 ++ [entry],
              st.2 ++ ["✅ Success: Logged " ++ entry.ai.name ++ " from " ++ sender])
          | Except.error e =>
            Except.ok (st.1, st.2 ++ ["⚠️ Error processing group " ++ g.1 ++ ": " ++ e])

/-- The `for group_id, data in groups.items()` loop. -/
def processGroups (o : Oracle) :
    List Entry × List String → List (String × List Msg) →
    Except AbortInfo (List Entry × List String)
  | st, [] => Except.ok st
  | st, g :: gs =>
    match processGroup o st g with
    | Except.ok st' => processGroups o st' gs
    | Except.error e => Except.error e

/-- The dedup set of line 82, as the list of recorded message ids. -/
def knownIds (db : List Entry) : List Nat := db.map (fun e => e.msg_id)

/-- One pass of `main()` after loading: dedup-filter the updates,
group them, and run the per-group loop starting from the loaded
records and an empty log. -/
def runPassDb (o : Oracle) (chat : String) (updates : List (Option Msg)) (db0 : List Entry) :
    Except AbortInfo (List Entry × List String) :=
  processGroups o (db0, []) (buildGroups [] (survivors chat (knownIds db0) updates))

/-- Outcome of a completed pass: final records, console log, and the
document written by the final save. -/
structure PassResult where
  db : List Entry
  log : List String
  fileText : String
deriving DecidableEq, Repr

/-- A full pass of `main()`: fail-safe load, the per-group loop, and
the single final save of lines 152-154 (reached only when no uncaught
exception aborted the loop). -/
def runPass (o : Oracle) (chat : String) (updates : List (Option Msg)) (fs : FileState) :
    Except AbortInfo PassResult :=
  match runPassDb o chat updates (load fs) with
  | Except.ok st => Except.ok ⟨st.1, st.2, savedText st.1⟩
  | Except.error e => Except.error e

/-! ## Derived characterizations used by the theorems -/

/-- The uncaught exception (if any) that processing one group raises:
an empty member list, a failing sender extraction, a failing download,
or a failing `Image.open` during payload assembly — everything the
`try` of lines 124-150 does not cover. -/
def groupAbort (o : Oracle) (g : String × List Msg) : Option String :=
  match g.2 with
  | [] => some "IndexError: list index out of range"
  | main_msg :: _ =>
    match senderOf main_msg with
    | Except.error e => some e
    | Except.ok _ =>
      match downloadGroup o [] g.2 with
      | Except.error e => some e
      | Except.ok paths =>
        match assembleContents o [combinedText g.2] paths with
        | Except.error e => some e
        | Except.ok _ => none

/-- The record one group contributes when its processing does not
abort the pass: `some` on a successful enrichment, `none` when the
caught classifier/parse failure skips the event (and `none` on an
aborting group, where no record is ever reached). -/
def groupRecord (o : Oracle) (g : String × List Msg) : Option Entry :=
  match g.2 with
  | [] => none
  | main_msg :: _ =>
    match senderOf main_msg with
    | Except.error _ => none
    | Except.ok sender =>
      match downloadGroup o [] g.2 with
      | Except.error _ => none
      | Except.ok paths =>
        match assembleContents o [combinedText g.2] paths with
        | Except.error _ => none
        | Except.ok contents =>
          match enrichTry o sender main_msg paths contents with
          | Except.ok entry => some entry
          | Except.error _ => none

/-- The console line one non-aborting group prints: the success line,
or the error line carrying the group key. -/
def groupLog (o : Oracle) (g : String × List Msg) : String :=
  match g.2 with
  | [] => ""
  | main_msg :: _ =>
    match senderOf main_msg with
    | Except.error _ => ""
    | Except.ok sender =>
      match downloadGroup o [] g.2 with
      | Except.error _ => ""
      | Except.ok paths =>
        match assembleContents o [combinedText g.2] paths with
        | Except.error _ => ""
        | Except.ok contents =>
          match enrichTry o sender main_msg paths contents with
          | Except.ok entry => "✅ Success: Logged " ++ entry.ai.name ++ " from " ++ sender
          | Except.error e => "⚠️ Error processing group " ++ g.1 ++ ": " ++ e

/-- Text combination as the specification words it: collect the
non-empty text/caption values in arrival order, and substitute the
literal fallback when that collection is empty. -/
def specCombinedText (msgs : List Msg) : String :=
  let vals := truthyTexts msgs
  if vals = [] then "Food photo" else pyJoin " " vals

/-- Number of records of a store lacking the `participants` field. -/
def countLacking (data : List Entry) : Nat :=
  (data.filter (fun e => e.participants.isNone)).length

/-! ## Concrete instances for counterexamples and witnesses -/

/-- A fixed classifier result. -/
def aiBurger : AiFields :=
  { name := "Burger Joint", category := "burger", rating := 8, price := 12,
    is_burger := true, comment := "good", items := ["burger"] }

/-- Oracle on which every external call succeeds. -/
def okOracle : Oracle :=
  { download := fun _ => Except.ok ()
    openImage := fun _ => Except.ok ()
    generateContent := fun _ => Except.ok "resp"
    parseJson := fun _ => Except.ok aiBurger
    imageAt := fun _ => ImageInput.noExif }

/-- First message of a two-message media group (the representative). -/
def msgA : Msg :=
  { message_id := 1, chat_id := "chat", from_user := some "Alice",
    text := some "Lunch", caption := none, media_group_id := some "g",
    date := "2024-01-01T12:00:00", photo := [] }

/-- Second message of the same media group. -/
def msgB : Msg :=
  { message_id := 2, chat_id := "chat", from_user := some "Alice",
    text := none, caption := none, media_group_id := some "g",
    date := "2024-01-01T12:00:01", photo := [] }

/-- The identical batch fed to both passes of the C1 counterexample. -/
def updatesAB : List (Option Msg) := [some msgA, some msgB]

/-- Record ids a pass run leaves in the store (`0` sentinel list on an
aborted pass, which does not occur in the counterexample). -/
def idsAfter (r : Except AbortInfo (List Entry × List String)) : List Nat :=
  match r with
  | Except.ok st => knownIds st.1
  | Except.error _ => [0]

/-- Store contents after the first pass of the C1 counterexample. -/
def dbAfterFirst : List Entry :=
  match runPassDb okOracle "chat" updatesAB [] with
  | Except.ok st => st.1
  | Except.error _ => []

/-- A singleton message (no media group) used by the C1 witness. -/
def msgW : Msg :=
  { message_id := 5, chat_id := "chat", from_user := some "Alice Smith",
    text := some "Lunch", caption := none, media_group_id := none,
    date := "2024-02-02T09:00:00", photo := [] }

/-- The record the C1 witness pass produces for `msgW`. -/
def entryW : Entry :=
  { ai := aiBurger, sender := "Alice", msg_id := 5,
    timestamp := "2024-02-02T09:00:00", image_paths := [], image_path := none,
    gps := none, participants := none }

/-- Oracle whose photo download always raises. -/
def failDownloadOracle : Oracle :=
  { okOracle with download := fun _ => Except.error "Timeout" }

/-- A singleton message carrying one photo. -/
def msgPhoto : Msg :=
  { message_id := 11, chat_id := "chat", from_user := some "Bob",
    text := none, caption := some "pic", media_group_id := none,
    date := "2024-03-03T10:00:00", photo := [{ file_id := "f", file_unique_id := "u" }] }

/-- A photo-less singleton message following `msgPhoto` in the batch. -/
def msgAfter : Msg :=
  { message_id := 12, chat_id := "chat", from_user := some "Carol",
    text := some "Dinner", caption := none, media_group_id := none,
    date := "2024-03-03T10:01:00", photo := [] }

/-- Oracle whose classifier call throws exactly on the payload of the
second witness event. -/
def failSecondOracle : Oracle :=
  { okOracle with
    generateContent := fun contents =>
      if contents = ["Event two"] then Except.error "boom" else Except.ok "resp" }

/-- Witness event 1 for the C2 amendment (the spec's 3-event example). -/
def msgE1 : Msg :=
  { message_id := 21, chat_id := "chat", from_user := some "Dan",
    text := some "Event one", caption := none, media_group_id := none,
    date := "2024-04-01T08:00:00", photo := [] }

/-- Witness event 2, whose classifier call throws. -/
def msgE2 : Msg :=
  { message_id := 22, chat_id := "chat", from_user := some "Eve",
    text := some "Event two", caption := none, media_group_id := none,
    date := "2024-04-01T08:01:00", photo := [] }

/-- Witness event 3. -/
def msgE3 : Msg :=
  { message_id := 23, chat_id := "chat", from_user := some "Fay",
    text := some "Event three", caption := none, media_group_id := none,
    date := "2024-04-01T08:02:00", photo := [] }

/-- Record produced for witness event 1. -/
def entryE1 : Entry :=
  { ai := aiBurger, sender := "Dan", msg_id := 21,
    timestamp := "2024-04-01T08:00:00", image_paths := [], image_path := none,
    gps := none, participants := none }

/-- Record produced for witness event 3. -/
def entryE3 : Entry :=
  { ai := aiBurger, sender := "Fay", msg_id := 23,
    timestamp := "2024-04-01T08:02:00", image_paths := [], image_path := none,
    gps := none, participants := none }

/-- A legacy record lacking `participants`, sender Alice. -/
def entryLegacy : Entry :=
  { ai := aiBurger, sender := "Alice", msg_id := 3,
    timestamp := "2024-01-05T13:00:00", image_paths := [], image_path := none,
    gps := none, participants := none }

/-- An ungrouped message whose synthesized key is `"single_7"`. -/
def msgSeven : Msg :=
  { message_id := 7, chat_id := "chat", from_user := some "Gil",
    text := some "fries", caption := none, media_group_id := none,
    date := "2024-05-01T11:00:00", photo := [] }

/-- A message whose real group key is the literal string `"single_7"`. -/
def msgFakeKey : Msg :=
  { message_id := 9, chat_id := "chat", from_user := some "Hal",
    text := some "soda", caption := none, media_group_id := some "single_7",
    date := "2024-05-01T11:01:00", photo := [] }

/-- Messages of the C5 example group: texts "Spicy fries", null,
"so good". -/
def msgT1 : Msg :=
  { message_id := 31, chat_id := "chat", from_user := some "Ivy",
    text := some "Spicy fries", caption := none, media_group_id := some "t",
    date := "2024-06-01T12:00:00", photo := [] }

/-- Second C5 example member, with no text and no caption. -/
def msgT2 : Msg :=
  { message_id := 32, chat_id := "chat", from_user := some "Ivy",
    text := none, caption := none, media_group_id := some "t",
    date := "2024-06-01T12:00:01", photo := [] }

/-- Third C5 example member. -/
def msgT3 : Msg :=
  { message_id := 33, chat_id := "chat", from_user := some "Ivy",
    text := none, caption := some "so good", media_group_id := some "t",
    date := "2024-06-01T12:00:02", photo := [] }

/-- A message whose attached user has a whitespace-only first name. -/
def msgBlank : Msg :=
  { message_id := 41, chat_id := "chat", from_user := some "   ",
    text := some "hi", caption := none, media_group_id := none,
    date := "2024-07-01T14:00:00", photo := [] }

/-- A well-formed singleton message processed before `msgBlank`. -/
def msgBefore : Msg :=
  { message_id := 40, chat_id := "chat", from_user := some "Joe",
    text := some "Tacos", caption := none, media_group_id := none,
    date := "2024-07-01T13:59:00", photo := [] }

/-- The record the pass appends for `msgBefore` before aborting. -/
def entryBefore : Entry :=
  { ai := aiBurger, sender := "Joe", msg_id := 40,
    timestamp := "2024-07-01T13:59:00", image_paths := [], image_path := none,
    gps := none, participants := none }

/-! ## Helper lemmas: decimal strings -/

theorem decodeRev_digitsRevF (fuel n : Nat) (h : n < fuel) :
    decodeRev (digitsRevF fuel n) = n := by
  induction fuel generalizing n with
  | zero => omega
  | succ fuel ih =>
    rw [digitsRevF]
    by_cases hn : n < 10
    · simp only [if_pos hn, decodeRev]
      have hc : (digitCh n).toNat = 48 + n := by
        unfold digitCh; interval_cases n <;> rfl
      omega
    · simp only [if_neg hn, decodeRev]
      have hc : (digitCh (n % 10)).toNat = 48 + n % 10 := by
        have hm : n % 10 < 10 := Nat.mod_lt _ (by omega)
        unfold digitCh; interval_cases hx : (n % 10) <;> rfl
      rw [ih (n / 10) (by omega), hc]
      omega

theorem natStr_inj {a b : Nat} (h : natStr a = natStr b) : a = b := by
  have hd : (digitsRevF (a + 1) a).reverse = (digitsRevF (b + 1) b).reverse := by
    injection h
  have hd2 : digitsRevF (a + 1) a = digitsRevF (b + 1) b :=
    List.reverse_injective hd
  have ha := decodeRev_digitsRevF (a + 1) a (by omega)
  rw [hd2, decodeRev_digitsRevF (b + 1) b (by omega)] at ha
  omega

theorem string_append_cancel {a b c : String} (h : a ++ b = a ++ c) : b = c := by
  have hdata := congrArg String.data h
  simp [String.data_append] at hdata
  exact String.ext hdata

theorem singleKey_inj {a b : Nat}
    (h : "single_" ++ natStr a = "single_" ++ natStr b) : a = b :=
  natStr_inj (string_append_cancel h)

/-! ## Helper lemmas: strings and joins -/

theorem string_length_eq_zero {s : String} : s.length = 0 ↔ s = "" := by
  cases s with
  | mk l =>
    constructor
    · intro h
      have hl : l = [] := by simpa [String.length] using h
      subst hl; rfl
    · intro h
      have hl : l = [] := by
        have := congrArg String.data h
        simpa using this
      simp [String.length, hl]

theorem string_length_append (a b : String) :
    (a ++ b).length = a.length + b.length := by
  show (a ++ b).data.length = a.data.length + b.data.length
  rw [String.data_append, List.length_append]

theorem append_ne_empty_left {a : String} (b : String) (h : a ≠ "") :
    a ++ b ≠ "" := by
  intro hab
  apply h
  have hlen := congrArg String.length hab
  rw [string_length_append] at hlen
  have h0 : ("" : String).length = 0 := rfl
  rw [h0] at hlen
  exact string_length_eq_zero.mp (by omega)

theorem pyJoin_eq_empty_iff {vals : List String} (h : ∀ v ∈ vals, v ≠ "") :
    pyJoin " " vals = "" ↔ vals = [] := by
  cases vals with
  | nil => simp [pyJoin]
  | cons x xs =>
    cases xs with
    | nil =>
      simp only [pyJoin]
      exact ⟨fun hx => absurd hx (h x (by simp)), fun hx => by simp at hx⟩
    | cons y ys =>
      simp only [pyJoin]
      constructor
      · intro hx
        exact absurd hx (by
          rw [String.append_assoc]
          exact append_ne_empty_left _ (h x (by simp)))
      · intro hx; simp at hx

theorem truthyTexts_ne_empty {msgs : List Msg} :
    ∀ v ∈ truthyTexts msgs, v ≠ "" := by
  intro v hv
  unfold truthyTexts at hv
  rcases List.mem_filterMap.mp hv with ⟨m, _, hm⟩
  rcases hop : pyOr m.text m.caption with _ | s
  · rw [hop] at hm; simp at hm
  · rw [hop] at hm
    by_cases hs : s = ""
    · simp [hs] at hm
    · simp [hs] at hm
      exact hm ▸ hs

/-! ## Helper lemmas: the grouping engine -/

theorem addToGroups_key_inv {gs : List (String × List Msg)} {k : String} {m0 : Msg}
    (hk : groupId m0 = k)
    (hinv : ∀ g ∈ gs, ∀ m ∈ g.2, groupId m = g.1) :
    ∀ g ∈ addToGroups gs k m0, ∀ m ∈ g.2, groupId m = g.1 := by
  intro g hg m hm
  unfold addToGroups at hg
  by_cases hex : ∃ g ∈ gs, g.1 = k
  · rw [if_pos hex] at hg
    rcases List.mem_map.mp hg with ⟨g0, hg0, hmap⟩
    by_cases h1 : g0.1 = k
    · rw [if_pos h1] at hmap
      subst hmap
      simp only at hm ⊢
      rcases List.mem_append.mp hm with hm | hm
      · exact hinv g0 hg0 m hm
      · simp at hm
        subst hm
        rw [hk, h1]
    · rw [if_neg h1] at hmap
      subst hmap
      exact hinv g0 hg0 m hm
  · rw [if_neg hex] at hg
    rcases List.mem_append.mp hg with hg | hg
    · exact hinv g hg m hm
    · simp at hg
      subst hg
      simp only at hm ⊢
      simp at hm
      subst hm
      exact hk

theorem buildGroups_key_inv (msgs : List Msg) :
    ∀ gs : List (String × List Msg),
      (∀ g ∈ gs, ∀ m ∈ g.2, groupId m = g.1) →
      ∀ g ∈ buildGroups gs msgs, ∀ m ∈ g.2, groupId m = g.1 := by
  induction msgs with
  | nil => intro gs hinv; simpa [buildGroups] using hinv
  | cons m0 ms ih =>
    intro gs hinv
    rw [buildGroups]
    exact ih _ (addToGroups_key_inv rfl hinv)

theorem addToGroups_nonempty {gs : List (String × List Msg)} {k : String} {m0 : Msg}
    (hinv : ∀ g ∈ gs, g.2 ≠ []) :
    ∀ g ∈ addToGroups gs k m0, g.2 ≠ [] := by
  intro g hg
  unfold addToGroups at hg
  by_cases hex : ∃ g ∈ gs, g.1 = k
  · rw [if_pos hex] at hg
    rcases List.mem_map.mp hg with ⟨g0, hg0, hmap⟩
    by_cases h1 : g0.1 = k
    · rw [if_pos h1] at hmap
      subst hmap
      simp
    · rw [if_neg h1] at hmap
      subst hmap
      exact hinv g0 hg0
  · rw [if_neg hex] at hg
    rcases List.mem_append.mp hg with hg | hg
    · exact hinv g hg
    · simp at hg
      subst hg
      simp

theorem buildGroups_nonempty (msgs : List Msg) :
    ∀ gs : List (String × List Msg),
      (∀ g ∈ gs, g.2 ≠ []) →
      ∀ g ∈ buildGroups gs msgs, g.2 ≠ [] := by
  induction msgs with
  | nil => intro gs hinv; simpa [buildGroups] using hinv
  | cons m0 ms ih =>
    intro gs hinv
    rw [buildGroups]
    exact ih _ (addToGroups_nonempty hinv)

theorem addToGroups_members {gs : List (String × List Msg)} {k : String} {m0 : Msg} :
    ∀ g ∈ addToGroups gs k m0, ∀ m ∈ g.2, (∃ g0 ∈ gs, m ∈ g0.2) ∨ m = m0 := by
  intro g hg m hm
  unfold addToGroups at hg
  by_cases hex : ∃ g ∈ gs, g.1 = k
  · rw [if_pos hex] at hg
    rcases List.mem_map.mp hg with ⟨g0, hg0, hmap⟩
    by_cases h1 : g0.1 = k
    · rw [if_pos h1] at hmap
      subst hmap
      simp only at hm
      rcases List.mem_append.mp hm with hm | hm
      · exact Or.inl ⟨g0, hg0, hm⟩
      · simp at hm; exact Or.inr hm
    · rw [if_neg h1] at hmap
      subst hmap
      exact Or.inl ⟨g0, hg0, hm⟩
  · rw [if_neg hex] at hg
    rcases List.mem_append.mp hg with hg | hg
    · exact Or.inl ⟨g, hg, hm⟩
    · simp at hg
      subst hg
      simp only at hm
      simp at hm
      exact Or.inr hm

theorem buildGroups_members (msgs : List Msg) :
    ∀ gs : List (String × List Msg),
      ∀ g ∈ buildGroups gs msgs, ∀ m ∈ g.2,
        (∃ g0 ∈ gs, m ∈ g0.2) ∨ m ∈ msgs := by
  induction msgs with
  | nil =>
    intro gs g hg m hm
    exact Or.inl ⟨g, hg, hm⟩
  | cons m0 ms ih =>
    intro gs g hg m hm
    rw [buildGroups] at hg
    rcases ih _ g hg m hm with ⟨g0, hg0, hm0⟩ | hm0
    · rcases addToGroups_members g0 hg0 m hm0 with ⟨g1, hg1, hm1⟩ | heq
      · exact Or.inl ⟨g1, hg1, hm1⟩
      · subst heq; exact Or.inr (by simp)
    · exact Or.inr (by simp [hm0])

theorem filter_map_fst_comm {u : String × List Msg → String × List Msg}
    {q : String → Bool} (hu : ∀ g, (u g).1 = g.1) :
    ∀ gs : List (String × List Msg),
      (gs.filter (fun g => q g.1)).map u = (gs.map u).filter (fun g => q g.1) := by
  intro gs
  induction gs with
  | nil => rfl
  | cons g gs ih =>
    by_cases hq : q g.1
    · simp [List.filter_cons, hq, hu g, ih]
    · simp [List.filter_cons, hq, hu g, ih]

theorem map_filter_fst_id {u : String × List Msg → String × List Msg}
    {q : String → Bool} (hu : ∀ g, (u g).1 = g.1)
    (hid : ∀ g, q g.1 = true → u g = g) :
    ∀ gs : List (String × List Msg),
      (gs.map u).filter (fun g => q g.1) = gs.filter (fun g => q g.1) := by
  intro gs
  induction gs with
  | nil => rfl
  | cons g gs ih =>
    by_cases hq : q g.1
    · simp [List.filter_cons, hq, hu g, ih, hid g hq]
    · simp [List.filter_cons, hq, hu g, ih]

theorem exists_key_filter {q : String → Bool} {k : String} (hq : q k = true)
    (gs : List (String × List Msg)) :
    (∃ g ∈ gs.filter (fun g => q g.1), g.1 = k) ↔ (∃ g ∈ gs, g.1 = k) := by
  constructor
  · rintro ⟨g, hg, hk⟩
    exact ⟨g, (List.mem_filter.mp hg).1, hk⟩
  · rintro ⟨g, hg, hk⟩
    refine ⟨g, List.mem_filter.mpr ⟨hg, ?_⟩, hk⟩
    rw [hk]; exact hq

theorem addToGroups_filter_pos {q : String → Bool} {k : String} {m0 : Msg}
    (hq : q k = true) (gs : List (String × List Msg)) :
    addToGroups (gs.filter (fun g => q g.1)) k m0
      = (addToGroups gs k m0).filter (fun g => q g.1) := by
  unfold addToGroups
  by_cases hex : ∃ g ∈ gs, g.1 = k
  · rw [if_pos ((exists_key_filter hq gs).mpr hex), if_pos hex]
    exact filter_map_fst_comm
      (fun g => by by_cases h : g.1 = k <;> simp [h]) gs
  · rw [if_neg (fun hc => hex ((exists_key_filter hq gs).mp hc)), if_neg hex]
    rw [List.filter_append]
    simp [hq]

theorem addToGroups_filter_neg {q : String → Bool} {k : String} {m0 : Msg}
    (hq : q k = false) (gs : List (String × List Msg)) :
    (addToGroups gs k m0).filter (fun g => q g.1)
      = gs.filter (fun g => q g.1) := by
  unfold addToGroups
  by_cases hex : ∃ g ∈ gs, g.1 = k
  · rw [if_pos hex]
    exact map_filter_fst_id
      (fun g => by by_cases h : g.1 = k <;> simp [h])
      (fun g hg => by
        by_cases h : g.1 = k
        · rw [h, hq] at hg; cases hg
        · simp [h]) gs
  · rw [if_neg hex, List.filter_append]
    simp [hq]

theorem buildGroups_filter {q : String → Bool} {p : Msg → Bool} :
    ∀ (msgs : List Msg) (gs : List (String × List Msg)),
      (∀ m ∈ msgs, p m = q (groupId m)) →
      buildGroups (gs.filter (fun g => q g.1)) (msgs.filter p)
        = (buildGroups gs msgs).filter (fun g => q g.1) := by
  intro msgs
  induction msgs with
  | nil => intro gs _; simp [buildGroups]
  | cons m0 ms ih =>
    intro gs hpq
    have hm0 := hpq m0 (by simp)
    by_cases hp : p m0 = true
    · have hq : q (groupId m0) = true := by rw [← hm0]; exact hp
      rw [List.filter_cons_of_pos hp, buildGroups, buildGroups,
        addToGroups_filter_pos hq]
      exact ih _ (fun m hm => hpq m (by simp [hm]))
    · have hp2 : p m0 = false := by
        cases hpm : p m0
        · rfl
        · exact absurd hpm hp
      have hq : q (groupId m0) = false := by rw [← hm0]; exact hp2
      rw [List.filter_cons_of_neg (by simp [hp2]), buildGroups]
      rw [← @addToGroups_filter_neg q (groupId m0) m0 hq gs]
      exact ih _ (fun m hm => hpq m (by simp [hm]))

/-! ## Helper lemmas: the dedup filter -/

theorem survivors_cons_none (chat : String) (P : List Nat) (us : List (Option Msg)) :
    survivors chat P (none :: us) = survivors chat P us := rfl

theorem survivors_cons_some (chat : String) (P : List Nat) (m : Msg)
    (us : List (Option Msg)) :
    survivors chat P (some m :: us)
      = if msgSurvives chat P m then m :: survivors chat P us
        else survivors chat P us := by
  unfold survivors
  by_cases h : msgSurvives chat P m <;> simp [List.filterMap_cons, h]

theorem mem_survivors {chat : String} {P : List Nat} {updates : List (Option Msg)}
    {m : Msg} (h : m ∈ survivors chat P updates) :
    some m ∈ updates ∧ m.chat_id = chat ∧ m.message_id ∉ P := by
  induction updates with
  | nil => cases h
  | cons u us ih =>
    cases u with
    | none =>
      rw [survivors_cons_none] at h
      have := ih h
      exact ⟨by simp [this.1], this.2.1, this.2.2⟩
    | some m' =>
      rw [survivors_cons_some] at h
      by_cases hs : msgSurvives chat P m'
      · rw [if_pos hs] at h
        rcases List.mem_cons.mp h with rfl | h
        · exact ⟨by simp, hs.1, hs.2⟩
        · have := ih h
          exact ⟨by simp [this.1], this.2.1, this.2.2⟩
      · rw [if_neg hs] at h
        have := ih h
        exact ⟨by simp [this.1], this.2.1, this.2.2⟩

theorem survivors_append (chat : String) (P extra : List Nat)
    (updates : List (Option Msg)) :
    survivors chat (P ++ extra) updates
      = (survivors chat P updates).filter
          (fun m => decide (m.message_id ∉ extra)) := by
  induction updates with
  | nil => rfl
  | cons u us ih =>
    cases u with
    | none =>
      rw [survivors_cons_none, survivors_cons_none]
      exact ih
    | some m =>
      have hiff : msgSurvives chat (P ++ extra) m
          ↔ msgSurvives chat P m ∧ m.message_id ∉ extra := by
        unfold msgSurvives
        simp [List.mem_append]
        tauto
      rw [survivors_cons_some, survivors_cons_some]
      by_cases h1 : msgSurvives chat P m
      · by_cases h2 : m.message_id ∈ extra
        · have hno : ¬ msgSurvives chat (P ++ extra) m := by
            rw [hiff]; tauto
          rw [if_neg hno, if_pos h1,
            List.filter_cons_of_neg (by simpa using h2)]
          exact ih
        · have hyes : msgSurvives chat (P ++ extra) m := by
            rw [hiff]; exact ⟨h1, h2⟩
          rw [if_pos hyes, if_pos h1,
            List.filter_cons_of_pos (by simpa using h2), ih]
      · have hno : ¬ msgSurvives chat (P ++ extra) m := by
          rw [hiff]; tauto
        rw [if_neg hno, if_neg h1]
        exact ih

/-! ## Helper lemmas: the per-group loop -/

theorem processGroup_eq (o : Oracle) (st : List Entry × List String)
    (g : String × List Msg) :
    processGroup o st g =
      match groupAbort o g with
      | some e => Except.error ⟨e, st.1, st.2⟩
      | none =>
        Except.ok (st.1 ++ (groupRecord o g).toList, st.2 ++ [groupLog o g]) := by
  obtain ⟨k, ms⟩ := g
  unfold processGroup groupAbort groupRecord groupLog
  cases ms with
  | nil => rfl
  | cons m rest =>
    dsimp only
    cases hs : senderOf m with
    | error e => rfl
    | ok sender =>
      dsimp only
      cases hd : downloadGroup o [] (m :: rest) with
      | error e => rfl
      | ok paths =>
        dsimp only
        cases hc : assembleContents o [combinedText (m :: rest)] paths with
        | error e => rfl
        | ok contents =>
          dsimp only
          cases he : enrichTry o sender m paths contents with
          | ok entry => rfl
          | error e => simp

theorem processGroups_ok (o : Oracle) :
    ∀ (gs : List (String × List Msg)) (db : List Entry) (log : List String),
      (∀ g ∈ gs, groupAbort o g = none) →
      processGroups o (db, log) gs
        = Except.ok (db ++ gs.filterMap (groupRecord o),
            log ++ gs.map (groupLog o)) := by
  intro gs
  induction gs with
  | nil => intro db log _; simp [processGroups]
  | cons g gs ih =>
    intro db log h
    have hg := h g (by simp)
    rw [processGroups, processGroup_eq, hg]
    simp only
    rw [ih _ _ (fun g' hg' => h g' (by simp [hg']))]
    cases hr : groupRecord o g <;>
      simp [List.filterMap_cons, hr, List.map_cons, List.append_assoc]

theorem processGroups_abort (o : Oracle) :
    ∀ (gs : List (String × List Msg)) (st : List Entry × List String)
      (g : String × List Msg), g ∈ gs → groupAbort o g ≠ none →
      ∃ e, processGroups o st gs = Except.error e := by
  intro gs
  induction gs with
  | nil => intro st g hg; cases hg
  | cons g0 gs ih =>
    intro st g hg habort
    rw [processGroups]
    cases ha0 : groupAbort o g0 with
    | some e =>
      rw [processGroup_eq, ha0]
      exact ⟨_, rfl⟩
    | none =>
      rw [processGroup_eq, ha0]
      simp only
      rcases List.mem_cons.mp hg with rfl | hg'
      · exact absurd ha0 habort
      · exact ih _ g hg' habort

theorem processGroups_ok_abort (o : Oracle) :
    ∀ (gs : List (String × List Msg)) (st : List Entry × List String)
      (st' : List Entry × List String),
      processGroups o st gs = Except.ok st' →
      ∀ g ∈ gs, groupAbort o g = none := by
  intro gs
  induction gs with
  | nil => intro st st' _ g hg; cases hg
  | cons g0 gs ih =>
    intro st st' hok g hg
    rw [processGroups] at hok
    cases ha0 : groupAbort o g0 with
    | some e =>
      rw [processGroup_eq, ha0] at hok
      cases hok
    | none =>
      rw [processGroup_eq, ha0] at hok
      simp only at hok
      rcases List.mem_cons.mp hg with rfl | hg'
      · exact ha0
      · exact ih _ _ hok g hg'

theorem enrichTry_msg_id {o : Oracle} {sender : String} {m : Msg}
    {paths contents : List String} {entry : Entry}
    (h : enrichTry o sender m paths contents = Except.ok entry) :
    entry.msg_id = m.message_id := by
  unfold enrichTry at h
  cases hgc : o.generateContent contents with
  | error e => rw [hgc] at h; cases h
  | ok resp =>
    rw [hgc] at h
    dsimp only at h
    cases hp : o.parseJson resp with
    | error e => rw [hp] at h; cases h
    | ok ai =>
      rw [hp] at h
      dsimp only at h
      injection h with h
      rw [← h]

theorem groupRecord_msg_id {o : Oracle} {g : String × List Msg} {e : Entry}
    (h : groupRecord o g = some e) :
    ∃ m rest, g.2 = m :: rest ∧ e.msg_id = m.message_id := by
  unfold groupRecord at h
  cases hg : g.2 with
  | nil => rw [hg] at h; cases h
  | cons m rest =>
    rw [hg] at h
    dsimp only at h
    refine ⟨m, rest, rfl, ?_⟩
    cases hs : senderOf m with
    | error e2 => rw [hs] at h; cases h
    | ok sender =>
      rw [hs] at h
      dsimp only at h
      cases hd : downloadGroup o [] (m :: rest) with
      | error e2 => rw [hd] at h; cases h
      | ok paths =>
        rw [hd] at h
        dsimp only at h
        cases hc : assembleContents o [combinedText (m :: rest)] paths with
        | error e2 => rw [hc] at h; cases h
        | ok contents =>
          rw [hc] at h
          dsimp only at h
          cases he : enrichTry o sender m paths contents with
          | error e2 => rw [he] at h; cases h
          | ok entry =>
            rw [he] at h
            dsimp only at h
            have hent : entry = e := by injection h
            rw [← hent]
            exact enrichTry_msg_id he

/-! ## Helper lemmas: joins and the migration -/

theorem join_foldl (xs : List String) : ∀ init : String,
    xs.foldl (fun r s => r ++ s) init = init ++ String.join xs := by
  induction xs with
  | nil => intro init; simp [String.join]
  | cons x xs ih =>
    intro init
    show xs.foldl _ (init ++ x) = _
    rw [ih (init ++ x)]
    have hx : String.join (x :: xs) = x ++ String.join xs := by
      show xs.foldl _ ("" ++ x) = _
      rw [ih ("" ++ x), String.empty_append]
    rw [hx, String.append_assoc]

theorem string_join_append (a b : List String) :
    String.join (a ++ b) = String.join a ++ String.join b := by
  induction a with
  | nil => simp [String.join]
  | cons x xs ih =>
    show (xs ++ b).foldl _ ("" ++ x) = String.join (x :: xs) ++ _
    rw [join_foldl (xs ++ b) ("" ++ x), ih]
    have hx : String.join (x :: xs) = x ++ String.join xs := by
      show xs.foldl _ ("" ++ x) = _
      rw [join_foldl xs ("" ++ x), String.empty_append]
    rw [hx, String.empty_append, String.append_assoc]

theorem string_join_take_drop (l : List String) (k : Nat) :
    String.join l = String.join (l.take k) ++ String.join (l.drop k) := by
  conv_lhs => rw [← List.take_append_drop k l]
  rw [string_join_append]

theorem migrateRun_eq (data : List Entry) :
    migrateRun data = (data.map migrateEntry, countLacking data) := by
  induction data with
  | nil => rfl
  | cons e rest ih =>
    cases hp : e.participants with
    | none =>
      simp [migrateRun, ih, migrateEntry, countLacking, List.filter_cons, hp]
    | some ps =>
      simp [migrateRun, ih, migrateEntry, countLacking, List.filter_cons, hp]

theorem migrate_eq (data : List Entry) :
    migrate data =
      if 0 < countLacking data
      then (data.map migrateEntry, countLacking data, true)
      else (data, countLacking data, false) := by
  unfold migrate
  simp only [migrateRun_eq]

theorem countLacking_map_migrateEntry (data : List Entry) :
    countLacking (data.map migrateEntry) = 0 := by
  induction data with
  | nil => rfl
  | cons e rest ih =>
    have hsome : (migrateEntry e).participants.isNone = false := by
      unfold migrateEntry
      cases hp : e.participants <;> simp [hp]
    simp only [countLacking, List.map_cons, List.filter_cons, hsome] at ih ⊢
    simpa using ih

theorem map_migrateEntry_of_zero {data : List Entry}
    (h : countLacking data = 0) : data.map migrateEntry = data := by
  induction data with
  | nil => rfl
  | cons e rest ih =>
    cases hp : e.participants with
    | none =>
      exfalso
      simp [countLacking, List.filter_cons, hp] at h
    | some ps =>
      have hrest : countLacking rest = 0 := by
        simpa [countLacking, List.filter_cons, hp] using h
      simp only [List.map_cons, ih hrest]
      unfold migrateEntry
      rw [hp]

/-! ## Claim C3 -/

/-- Counterexample to claim C3 as stated: with prior file contents
`"[]"` and one record to serialize, a failure after zero chunks leaves
the file neither with its prior contents nor with the full
serialization — `open(db_path, 'w')` has already truncated it. -/
theorem save_not_atomic :
    saveFile (some "[]") [entryLegacy] (some 0) = some ""
    ∧ saveFile (some "[]") [entryLegacy] (some 0) ≠ some "[]"
    ∧ saveFile (some "[]") [entryLegacy] (some 0)
        ≠ saveFile (some "[]") [entryLegacy] none := by
  refine ⟨rfl, ?_, ?_⟩ <;> decide

/-- Claim C3 (amended): the failure-free save writes the full
serialization of the in-memory sequence, the save of a completed pass
is the single final one (the pass result's file text is exactly the
full serialization of its final records), but the write is not atomic:
a failure partway through leaves some prefix of the new serialization
(possibly empty), not the prior contents. -/
theorem save_writes_full_or_truncated (prior : Option String) (db : List Entry) (k : Nat) :
    saveFile prior db none = some (savedText db)
    ∧ (∀ s, saveFile prior db (some k) = some s → ∃ rest, savedText db = s ++ rest)
    ∧ (∀ (o : Oracle) (chat : String) (updates : List (Option Msg)) (fs : FileState)
        (r : PassResult), runPass o chat updates fs = Except.ok r →
          r.fileText = savedText r.db) := by
  refine ⟨rfl, ?_, ?_⟩
  · intro s hs
    have hs' : s = String.join ((saveChunks db).take k) := by
      unfold saveFile at hs
      injection hs with hs
      exact hs.symm
    exact ⟨String.join ((saveChunks db).drop k),
      by rw [hs']; exact string_join_take_drop (saveChunks db) k⟩
  · intro o chat updates fs r hr
    unfold runPass at hr
    cases hrun : runPassDb o chat updates (load fs) with
    | error e => rw [hrun] at hr; cases hr
    | ok st =>
      rw [hrun] at hr
      dsimp only at hr
      injection hr with hr
      rw [← hr]

/-- Witness for C3 (amended) at a concrete store. -/
theorem save_writes_full_or_truncated_witness :
    (∃ rest, savedText [entryLegacy] = "" ++ rest)
    ∧ saveFile (some "old") [entryLegacy] none = some (savedText [entryLegacy]) :=
  ⟨(save_writes_full_or_truncated (some "old") [entryLegacy] 0).2.1 "" rfl,
   (save_writes_full_or_truncated (some "old") [entryLegacy] 0).1⟩

/-! ## Claim C5 -/

/-- Claim C5: `combined_text` is the single-space join of the truthy
text/caption values of the member messages in arrival order, with the
literal fallback "Food photo" when no member contributes one; in
particular the texts ["Spicy fries", null, "so good"] give
"Spicy fries so good" and an all-empty group gives "Food photo". -/
theorem combined_text_spec :
    (∀ msgs : List Msg, combinedText msgs = specCombinedText msgs)
    ∧ combinedText [msgT1, msgT2, msgT3] = "Spicy fries so good"
    ∧ combinedText [msgT2] = "Food photo" := by
  refine ⟨?_, by decide, by decide⟩
  intro msgs
  unfold combinedText specCombinedText
  by_cases h : truthyTexts msgs = []
  · rw [h]
    simp [pyJoin]
  · rw [if_neg h]
    have hjoin : pyJoin " " (truthyTexts msgs) ≠ "" := fun hc =>
      h ((pyJoin_eq_empty_iff (@truthyTexts_ne_empty msgs)).mp hc)
    rw [if_neg hjoin]

/-! ## Claim C6 -/

/-- Claim C6: `migrate` sets `participants` to `[sender]` exactly on
the records lacking the field, reports the number of changed records,
writes back iff that number is positive, and is idempotent — a second
run changes nothing and performs no write.  The last conjunct is the
specification's Alice example. -/
theorem migrate_behaviour_idempotent (data : List Entry) :
    (migrate data).1 = data.map migrateEntry
    ∧ (migrate data).2.1 = countLacking data
    ∧ (migrate data).2.2 = decide (0 < countLacking data)
    ∧ migrate (migrate data).1 = ((migrate data).1, 0, false)
    ∧ migrateEntry entryLegacy
        = { entryLegacy with participants := some ["Alice"] } := by
  have hm := migrate_eq data
  have hfst : (migrate data).1 = data.map migrateEntry := by
    rw [hm]
    by_cases h : 0 < countLacking data
    · simp [h]
    · have h0 : countLacking data = 0 := by omega
      simp [h, map_migrateEntry_of_zero h0]
  refine ⟨hfst, ?_, ?_, ?_, by decide⟩
  · rw [hm]
    by_cases h : 0 < countLacking data <;> simp [h]
  · rw [hm]
    by_cases h : 0 < countLacking data <;> simp [h]
  · have hzero : countLacking (migrate data).1 = 0 := by
      rw [hfst]; exact countLacking_map_migrateEntry data
    rw [migrate_eq ((migrate data).1), hzero]
    simp

/-! ## Claim C7 -/

/-- Claim C7: for latitude and longitude stored as
degree/minute/second triples, the extracted decimal values are
`d + m/60 + s/3600`, negated exactly when the hemisphere reference tag
is "S" (latitude) respectively "W" (longitude); any other or absent
tag leaves the positive N/E value. -/
theorem gps_coordinate_derivation (d m s d2 m2 s2 : Rat)
    (latRef lngRef : Option String) :
    get_gps_location (ImageInput.withExif
      { latitude := some [d, m, s], longitude := some [d2, m2, s2],
        latitudeRef := latRef, longitudeRef := lngRef })
      = some
        (if latRef = some "S" then -(d + m / 60 + s / 3600)
         else d + m / 60 + s / 3600,
         if lngRef = some "W" then -(d2 + m2 / 60 + s2 / 3600)
         else d2 + m2 / 60 + s2 / 3600) := rfl

/-! ## Claim C8 -/

/-- Claim C8: GPS extraction is total — on every image input it
returns either a coordinate pair or `none`; every exception of the
body is absorbed to `none` and every normal result is passed
through. -/
theorem gps_extraction_total (input : ImageInput) :
    ((∃ p, get_gps_location input = some p) ∨ get_gps_location input = none)
    ∧ (∀ e, gpsBody input = Except.error e → get_gps_location input = none)
    ∧ (∀ v, gpsBody input = Except.ok v → get_gps_location input = v) := by
  refine ⟨?_, ?_, ?_⟩
  · cases h : get_gps_location input with
    | none => exact Or.inr rfl
    | some p => exact Or.inl ⟨p, rfl⟩
  · intro e he
    unfold get_gps_location
    rw [he]
  · intro v hv
    unfold get_gps_location
    rw [hv]

/-- Witness for C8 at concrete failing inputs: an unreadable file and
a malformed (too short) GPS tuple both yield `none`. -/
theorem gps_extraction_total_witness :
    get_gps_location ImageInput.unreadable = none
    ∧ get_gps_location (ImageInput.withExif
        { latitude := some [1], longitude := some [2],
          latitudeRef := none, longitudeRef := none }) = none :=
  ⟨(gps_extraction_total ImageInput.unreadable).2.1
      "OSError: cannot open image" rfl,
   (gps_extraction_total (ImageInput.withExif
      { latitude := some [1], longitude := some [2],
        latitudeRef := none, longitudeRef := none })).2.1
      "IndexError: tuple index out of range" rfl⟩

/-! ## Claim C9 -/

/-- Claim C9: loading an absent or unparseable store file yields the
empty record sequence rather than an error, and the pass on such a
file proceeds exactly as on an empty parsed store. -/
theorem load_resilient :
    load FileState.absent = [] ∧ load FileState.corrupt = []
    ∧ ∀ (o : Oracle) (chat : String) (updates : List (Option Msg)),
        runPass o chat updates FileState.absent
          = runPass o chat updates (FileState.parsed [])
        ∧ runPass o chat updates FileState.corrupt
          = runPass o chat updates (FileState.parsed []) :=
  ⟨rfl, rfl, fun _ _ _ => ⟨rfl, rfl⟩⟩

/-! ## Claim C4 -/

/-- Counterexample to claim C4 as stated: the synthesized key of an
ungrouped message with id 7 is the string "single_7", which collides
with the real group key "single_7" of another message in the batch, so
the two unrelated submissions merge into one logical event. -/
theorem grouping_key_collision :
    msgSeven.media_group_id = none
    ∧ msgFakeKey.media_group_id = some "single_7"
    ∧ groupId msgSeven = groupId msgFakeKey
    ∧ buildGroups [] [msgFakeKey, msgSeven]
        = [("single_7", [msgFakeKey, msgSeven])] := by
  refine ⟨rfl, rfl, by decide, by decide⟩

/-- Claim C4 (amended): a surviving message with a non-empty group key
is assigned that key; two ungrouped messages with distinct ids get
distinct synthesized keys; and a batch of N ungrouped messages with
pairwise distinct ids produces exactly N singleton events in arrival
order.  A synthesized key can, however, collide with a real group key
of the literal form `single_<id>` (see the counterexample), so
distinctness from real keys holds only when no such key occurs. -/
theorem grouping_key_assignment :
    (∀ (m : Msg) (k : String), m.media_group_id = some k → k ≠ "" →
        groupId m = k)
    ∧ (∀ m m2 : Msg, m.media_group_id = none → m2.media_group_id = none →
        m.message_id ≠ m2.message_id → groupId m ≠ groupId m2)
    ∧ (∀ msgs : List Msg, (∀ m ∈ msgs, m.media_group_id = none) →
        msgs.Pairwise (fun a b => a.message_id ≠ b.message_id) →
        buildGroups [] msgs = msgs.map (fun m => (groupId m, [m]))) := by
  have hsingle : ∀ m : Msg, m.media_group_id = none →
      groupId m = "single_" ++ natStr m.message_id := by
    intro m hm
    unfold groupId
    rw [hm]
  have hdistinct : ∀ m m2 : Msg, m.media_group_id = none →
      m2.media_group_id = none → m.message_id ≠ m2.message_id →
      groupId m ≠ groupId m2 := by
    intro m m2 h1 h2 hne hc
    rw [hsingle m h1, hsingle m2 h2] at hc
    exact hne (singleKey_inj hc)
  refine ⟨?_, hdistinct, ?_⟩
  · intro m k hm hk
    unfold groupId
    rw [hm]
    dsimp only
    rw [if_neg hk]
  · have hfresh : ∀ (msgs : List Msg) (gs : List (String × List Msg)),
        (∀ m ∈ msgs, ∀ g ∈ gs, g.1 ≠ groupId m) →
        msgs.Pairwise (fun a b => groupId a ≠ groupId b) →
        buildGroups gs msgs = gs ++ msgs.map (fun m => (groupId m, [m])) := by
      intro msgs
      induction msgs with
      | nil => intro gs _ _; simp [buildGroups]
      | cons m0 ms ih =>
        intro gs hnew hpw
        rw [buildGroups]
        have hnex : ¬ ∃ g ∈ gs, g.1 = groupId m0 := by
          rintro ⟨g, hg, hk⟩
          exact hnew m0 (by simp) g hg hk
        rw [show addToGroups gs (groupId m0) m0
            = gs ++ [(groupId m0, [m0])] from by
          unfold addToGroups
          rw [if_neg hnex]]
        rw [ih (gs ++ [(groupId m0, [m0])]) ?_ (List.Pairwise.sublist
          (List.sublist_cons_self m0 ms) hpw)]
        · simp
        · intro m hm g hg
          rcases List.mem_append.mp hg with hg | hg
          · exact hnew m (by simp [hm]) g hg
          · simp at hg
            rw [hg]
            exact (List.pairwise_cons.mp hpw).1 m hm
    intro msgs hmedia hpw
    refine hfresh msgs [] (by simp) ?_
    refine List.Pairwise.imp_of_mem ?_ hpw
    intro a b ha hb hne
    exact hdistinct a b (hmedia a ha) (hmedia b hb) hne

/-- Witness for C4 (amended), part 3: two ungrouped messages with
distinct ids yield two singleton events. -/
theorem grouping_key_assignment_witness :
    buildGroups [] [msgW, msgAfter]
      = [msgW, msgAfter].map (fun m => (groupId m, [m])) :=
  grouping_key_assignment.2.2 [msgW, msgAfter] (by decide) (by decide)

/-! ## Claim C10 -/

/-- Counterexample to claim C10 as stated: with a well-formed event
followed by one whose sender display name is whitespace-only, the pass
does abort with the uncaught IndexError and nothing is saved — but the
abort happens *after* the first event's record was appended to the
in-memory sequence (and its success line printed), so the pass does
not abort "before any record is appended". -/
theorem whitespace_sender_abort_after_append :
    runPass okOracle "chat" [some msgBefore, some msgBlank] FileState.absent
      = Except.error
          { message := "IndexError: list index out of range",
            db := [entryBefore],
            log := ["✅ Success: Logged Burger Joint from Joe"] }
    ∧ [entryBefore] ≠ ([] : List Entry) := by
  refine ⟨by decide, by decide⟩

/-- Claim C10 (amended): sender extraction is only defined when the
representative display name has a non-whitespace token; when the token
list is empty the indexing raises outside the per-event handler and
the whole pass aborts — no save runs and nothing is persisted, though
records of events processed earlier in the same pass were already
appended to the in-memory sequence (and are lost). -/
theorem whitespace_sender_aborts_pass (o : Oracle) (chat : String)
    (updates : List (Option Msg)) (fs : FileState)
    (g : String × List Msg) (m : Msg)
    (hg : g ∈ buildGroups [] (survivors chat (knownIds (load fs)) updates))
    (hm : g.2.head? = some m)
    (hname : pySplit (resolvedName m) = []) :
    ∃ e, runPass o chat updates fs = Except.error e := by
  have hsend : senderOf m = Except.error "IndexError: list index out of range" := by
    unfold senderOf
    rw [hname]
  have habort : groupAbort o g ≠ none := by
    unfold groupAbort
    cases hg2 : g.2 with
    | nil => simp
    | cons m0 rest =>
      rw [hg2] at hm
      simp at hm
      rw [← hm] at hsend
      dsimp only
      rw [hsend]
      simp
  obtain ⟨e, he⟩ := processGroups_abort o _ (load fs, []) g hg habort
  refine ⟨e, ?_⟩
  unfold runPass runPassDb
  rw [he]

/-- Witness for C10 (amended) at a concrete batch. -/
theorem whitespace_sender_aborts_pass_witness :
    ∃ e, runPass okOracle "chat" [some msgBlank] FileState.absent
      = Except.error e :=
  whitespace_sender_aborts_pass okOracle "chat" [some msgBlank]
    FileState.absent ("single_41", [msgBlank]) msgBlank
    (by decide) (by decide) (by decide)

/-! ## Claim C2 -/

/-- Counterexample to claim C2 as stated: a photo download failure is
*not* caught — the pass aborts with the uncaught exception, the later
event in the batch is never processed, and the final save never runs
(the error carries the untouched empty state). -/
theorem download_failure_aborts :
    runPass failDownloadOracle "chat" [some msgPhoto, some msgAfter]
        FileState.absent
      = Except.error { message := "Timeout", db := [], log := [] } := by
  decide

/-- Claim C2 (amended): when no event of the batch fails in its
download or payload-assembly phase, the pass completes: every event
whose classifier call or response parse throws is skipped with a log
line carrying its group key and contributes no record, all other
events contribute their record in order, and the final save runs on
the resulting sequence. -/
theorem classifier_failure_isolated (o : Oracle) (chat : String)
    (updates : List (Option Msg)) (fs : FileState)
    (h : ∀ g ∈ buildGroups [] (survivors chat (knownIds (load fs)) updates),
      groupAbort o g = none) :
    runPass o chat updates fs = Except.ok
      { db := load fs
          ++ (buildGroups [] (survivors chat (knownIds (load fs)) updates)).filterMap
              (groupRecord o),
        log := (buildGroups [] (survivors chat (knownIds (load fs)) updates)).map
              (groupLog o),
        fileText := savedText (load fs
          ++ (buildGroups [] (survivors chat (knownIds (load fs)) updates)).filterMap
              (groupRecord o)) } := by
  unfold runPass runPassDb
  rw [processGroups_ok o _ _ _ h]
  rfl

set_option maxRecDepth 4000 in
/-- Witness for C2 (amended): the specification's 3-event example —
the classifier throws on event 2; events 1 and 3 are appended, event 2
only leaves an error line carrying its group key, and the save runs on
the two records. -/
theorem classifier_failure_isolated_witness :
    runPass failSecondOracle "chat" [some msgE1, some msgE2, some msgE3]
        FileState.absent
      = Except.ok
          { db := [entryE1, entryE3],
            log := ["✅ Success: Logged Burger Joint from Dan",
                    "⚠️ Error processing group single_22: boom",
                    "✅ Success: Logged Burger Joint from Fay"],
            fileText := savedText [entryE1, entryE3] } := by
  rw [classifier_failure_isolated failSecondOracle "chat"
    [some msgE1, some msgE2, some msgE3] FileState.absent (by decide)]
  decide

/-! ## Claim C1 -/

/-- Counterexample to claim C1 as stated: a two-message media group is
recorded under its representative's id only (id 1); re-running the
identical batch filters out message 1 but not message 2, re-forms the
group from message 2 alone, and appends a second record (id 2) for the
same already-recorded logical event. -/
theorem pipeline_not_idempotent :
    msgA.media_group_id = some "g"
    ∧ msgB.media_group_id = some "g"
    ∧ idsAfter (runPassDb okOracle "chat" updatesAB []) = [1]
    ∧ idsAfter (runPassDb okOracle "chat" updatesAB dbAfterFirst) = [1, 2] := by
  refine ⟨rfl, rfl, by decide, by decide⟩

/-- Claim C1 (amended): only the representative message's `msg_id` is
recorded, so the dedup set filters exactly the representative of each
recorded event.  Idempotence therefore holds for batches of singleton
events (no media group key on any message): if a pass over such a
batch completes, running the identical batch again on the store it
left appends no record. -/
theorem pipeline_idempotent_singleton (o : Oracle) (chat : String)
    (updates : List (Option Msg)) (db0 db1 : List Entry) (log1 : List String)
    (hsingle : ∀ u ∈ updates, ∀ m : Msg, u = some m → m.media_group_id = none)
    (h1 : runPassDb o chat updates db0 = Except.ok (db1, log1)) :
    ∃ log2, runPassDb o chat updates db1 = Except.ok (db1, log2) := by
  classical
  have h1' : processGroups o (db0, [])
      (buildGroups [] (survivors chat (knownIds db0) updates))
      = Except.ok (db1, log1) := h1
  have hAbort := processGroups_ok_abort o _ _ _ h1'
  have hok := processGroups_ok o
    (buildGroups [] (survivors chat (knownIds db0) updates)) db0 [] hAbort
  rw [h1'] at hok
  injection hok with hok
  injection hok with hdb1 hlog1
  set gs1 := buildGroups [] (survivors chat (knownIds db0) updates) with hgs1
  set new := gs1.filterMap (groupRecord o) with hnew
  have hids : knownIds db1 = knownIds db0 ++ knownIds new := by
    rw [hdb1]
    unfold knownIds
    rw [List.map_append]
  have hsvs2 : survivors chat (knownIds db1) updates
      = (survivors chat (knownIds db0) updates).filter
          (fun m => decide (m.message_id ∉ knownIds new)) := by
    rw [hids]
    exact survivors_append chat (knownIds db0) (knownIds new) updates
  set q : String → Bool :=
    fun k => decide (∀ i ∈ knownIds new, ¬("single_" ++ natStr i = k)) with hq
  have hmedia : ∀ m ∈ survivors chat (knownIds db0) updates,
      m.media_group_id = none := by
    intro m hm
    obtain ⟨hu, _, _⟩ := mem_survivors hm
    exact hsingle _ hu m rfl
  have hkey : ∀ m ∈ survivors chat (knownIds db0) updates,
      groupId m = "single_" ++ natStr m.message_id := by
    intro m hm
    unfold groupId
    rw [hmedia m hm]
  have hpq : ∀ m ∈ survivors chat (knownIds db0) updates,
      (decide (m.message_id ∉ knownIds new) : Bool) = q (groupId m) := by
    intro m hm
    rw [hkey m hm, hq]
    rw [decide_eq_decide]
    constructor
    · intro hnot i hi hcontra
      exact hnot (singleKey_inj hcontra ▸ hi)
    · intro hall hmem
      exact hall m.message_id hmem rfl
  have hgs2 : buildGroups [] (survivors chat (knownIds db1) updates)
      = gs1.filter (fun g => q g.1) := by
    rw [hsvs2, hgs1]
    have hbf := @buildGroups_filter q
      (fun m => decide (m.message_id ∉ knownIds new))
      (survivors chat (knownIds db0) updates) [] hpq
    simpa using hbf
  have habort2 : ∀ g ∈ gs1.filter (fun g => q g.1), groupAbort o g = none := by
    intro g hg
    exact hAbort g (List.mem_filter.mp hg).1
  have hrec2 : (gs1.filter (fun g => q g.1)).filterMap (groupRecord o) = [] := by
    rw [List.filterMap_eq_nil_iff]
    intro g hg
    obtain ⟨hg1, hq1⟩ := List.mem_filter.mp hg
    cases hr : groupRecord o g with
    | none => rfl
    | some e =>
      exfalso
      obtain ⟨m, rest, hg2, hmsgid⟩ := groupRecord_msg_id hr
      have hmmem : m ∈ g.2 := by rw [hg2]; simp
      have hmsvs : m ∈ survivors chat (knownIds db0) updates := by
        rcases buildGroups_members (survivors chat (knownIds db0) updates)
            [] g hg1 m hmmem with ⟨g0, hg0, _⟩ | hmem
        · cases hg0
        · exact hmem
      have hkeyinv : groupId m = g.1 :=
        buildGroups_key_inv (survivors chat (knownIds db0) updates) []
          (fun g hg => by cases hg) g hg1 m hmmem
      have henew : e ∈ new := List.mem_filterMap.mpr ⟨g, hg1, hr⟩
      have hidnew : m.message_id ∈ knownIds new := by
        rw [← hmsgid]
        exact List.mem_map.mpr ⟨e, henew, rfl⟩
      have hqprop := of_decide_eq_true hq1
      apply hqprop m.message_id hidnew
      rw [← hkeyinv, hkey m hmsvs]
  refine ⟨[] ++ (gs1.filter (fun g => q g.1)).map (groupLog o), ?_⟩
  show processGroups o (db1, [])
    (buildGroups [] (survivors chat (knownIds db1) updates)) = _
  rw [hgs2, processGroups_ok o _ _ _ habort2, hrec2, List.append_nil]

/-- Witness for C1 (amended): a concrete one-singleton batch — the
first pass records it, the second pass on the resulting store appends
nothing. -/
theorem pipeline_idempotent_singleton_witness :
    runPassDb okOracle "chat" [some msgW] []
      = Except.ok ([entryW], ["✅ Success: Logged Burger Joint from Alice"])
    ∧ ∃ log2, runPassDb okOracle "chat" [some msgW] [entryW]
        = Except.ok ([entryW], log2) := by
  have hsingle : ∀ u ∈ [some msgW], ∀ m : Msg, u = some m →
      m.media_group_id = none := by
    intro u hu m hm
    simp at hu
    rw [hu] at hm
    injection hm with hm
    rw [← hm]
    rfl
  exact ⟨by decide,
    pipeline_idempotent_singleton okOracle "chat" [some msgW] [] [entryW]
      ["✅ Success: Logged Burger Joint from Alice"] hsingle (by decide)⟩

end BurgerQuest
